import Mathlib

/-!
# GraphQLCache — shallow embedding

A verification development of the schema- and dependency-cache layer of the
GraphQL language-service backend (`GraphQLCache`).  The repository ships the
mocha test suite for `GraphQLCache` together with the project's written
design; the implementation module itself (`../GraphQLCache`) is not part of
the source tree here, so every operation below is modelled from the spec, as
flagged in the individual doc comments.  External collaborators (the query
parser, the text extractor, the network transport, the filesystem and the
glob expander) are out of scope per the spec and appear as explicit data.
-/

namespace GraphQLCache

/-! ## Data model -/

/-- A custom or built-in directive as observed through `schema.getDirective`:
its name, the locations at which it may appear, and its argument names. -/
structure Directive where
  name : String
  locations : List String
  args : List String
deriving DecidableEq, Repr

/-- Modelled from the spec: the parsed content of an on-disk schema-definition
file — the named type definitions and the custom-directive definitions it
supplies (the language parser itself is an out-of-scope collaborator, so files
are held in parsed form). -/
structure SchemaDoc where
  typeDefs : List String
  directiveDefs : List Directive
deriving DecidableEq, Repr

/-- Modelled from the spec: a remote endpoint's introspection result, the JSON
self-description convertible into a schema object. -/
structure Introspection where
  typeNames : List String
deriving DecidableEq, Repr

/-- Where the material of a schema object came from: disk text or a remote
introspection result. -/
inductive SchemaSource where
  | disk (d : SchemaDoc)
  | introspection (i : Introspection)
deriving DecidableEq, Repr

/-- The in-memory validated schema representation: its source material plus
its directive set (built-ins and merged custom directives). -/
structure SchemaObject where
  source : SchemaSource
  directives : List Directive
deriving DecidableEq, Repr

/-- `schema.getDirective(name)`: the first directive of the schema carrying
the given name. -/
def SchemaObject.getDirective (s : SchemaObject) (n : String) : Option Directive :=
  s.directives.find? (fun d => d.name == n)

/-- How a cached schema entry was produced. -/
inductive SourceKind where
  | DISK
  | ENDPOINT
deriving DecidableEq, Repr

/-- CachedSchemaEntry: at most one live entry per project key; created on
first successful build, deleted on invalidation.  `sourcePaths` records every
file read to build the schema, for targeted invalidation. -/
structure CachedSchemaEntry where
  projectKey : String
  schema : SchemaObject
  sourceKind : SourceKind
  sourcePaths : List String
deriving DecidableEq, Repr

/-- Endpoint configuration: url and headers. -/
structure Endpoint where
  url : String
  headers : List (String × String)
deriving DecidableEq, Repr

/-- Project configuration, resolved externally by the project-configuration
provider: optional disk schema path, optional endpoint, include globs for the
fragment/type index, and the paths searched for custom-directive extension
documents. -/
structure ProjectConfig where
  projectName : String
  schemaPath : Option String
  endpoint : Option Endpoint
  includeGlobs : List String
  extensionPaths : List String
deriving DecidableEq, Repr

/-! ## Document AST -/

/-- A selection inside an executable document: a field with a sub-selection,
a fragment spread, or an inline fragment. -/
inductive Selection where
  | field (name : String) (sels : List Selection)
  | fragmentSpread (name : String)
  | inlineFragment (typeCond : Option String) (sels : List Selection)

/-- A top-level definition of a parsed document: an operation, a fragment
definition, or an object-type definition (whose `refs` are the named types it
references through field, argument and return types). -/
inductive Definition where
  | operation (name : Option String) (sels : List Selection)
  | fragmentDef (name : String) (typeCond : String) (sels : List Selection)
  | objectTypeDef (name : String) (refs : List String)

/-- A parsed document. -/
structure Document where
  definitions : List Definition

/-- All fragment-spread names occurring in a selection list, in document
order, nested selections included. -/
def spreadsInSelections : List Selection → List String
  | [] => []
  | Selection.field _ sels :: rest => spreadsInSelections sels ++ spreadsInSelections rest
  | Selection.fragmentSpread n :: rest => n :: spreadsInSelections rest
  | Selection.inlineFragment _ sels :: rest => spreadsInSelections sels ++ spreadsInSelections rest

/-- All fragment-spread names of one top-level definition. -/
def spreadsInDefinition : Definition → List String
  | Definition.operation _ sels => spreadsInSelections sels
  | Definition.fragmentDef _ _ sels => spreadsInSelections sels
  | Definition.objectTypeDef _ _ => []

/-- All fragment-spread names of a document, in document order. -/
def spreadsInDocument (doc : Document) : List String :=
  doc.definitions.flatMap spreadsInDefinition

/-- All named-type references of one top-level definition. -/
def typeRefsInDefinition : Definition → List String
  | Definition.operation _ _ => []
  | Definition.fragmentDef _ _ _ => []
  | Definition.objectTypeDef _ refs => refs

/-- All named-type references of a document, in document order. -/
def typeRefsInDocument (doc : Document) : List String :=
  doc.definitions.flatMap typeRefsInDefinition

/-- The names of the fragment definitions appearing at the document's own top
level. -/
def localFragmentNames (doc : Document) : List String :=
  doc.definitions.filterMap fun d =>
    match d with
    | Definition.fragmentDef n _ _ => some n
    | _ => none

/-- The names of the type definitions appearing at the document's own top
level. -/
def localTypeNames (doc : Document) : List String :=
  doc.definitions.filterMap fun d =>
    match d with
    | Definition.objectTypeDef n _ => some n
    | _ => none

/-! ## External world: filesystem, globs, network -/

/-- Parsed content of a file: a schema-definition document, an executable
(query/fragment) document, or an unparsable file. -/
inductive FileContent where
  | schemaDoc (d : SchemaDoc)
  | queryDoc (raw : String) (d : Document)
  | unparsable

/-- The filesystem snapshot: path → content association. -/
abbrev FileSystem := List (String × FileContent)

/-- Read a file from the snapshot. -/
def readFile (fs : FileSystem) (p : String) : Option FileContent :=
  match fs with
  | [] => none
  | (q, c) :: rest => if q == p then some c else readFile rest p

/-- A single network response the transport can deliver: a transport-level
error, or an HTTP reply with a status code and an optional well-shaped JSON
introspection body (`none` models a non-JSON or malformed payload). -/
inductive NetResponse where
  | transportError
  | reply (status : Nat) (body : Option Introspection)
deriving DecidableEq, Repr

/-- The network behaviour: url → response association; an unknown url is a
transport error. -/
abbrev Network := List (String × NetResponse)

def netRespond (net : Network) (url : String) : NetResponse :=
  match net with
  | [] => NetResponse.transportError
  | (u, r) :: rest => if u == url then r else netRespond rest url

/-- The observable I/O actions of the cache layer, recorded in order. -/
inductive IOEvent where
  | netRequest (url : String)
  | diskRead (path : String)
deriving DecidableEq, Repr

/-- The whole external environment of the cache: the project-configuration
provider, the network and the glob expander (pattern → matched paths; an
unknown pattern matches nothing). -/
structure Env where
  configs : List (String × ProjectConfig)
  net : Network
  globs : List (String × List String)

def resolveProjectConfig (env : Env) (key : String) : Option ProjectConfig :=
  match env.configs with
  | [] => none
  | _ => lookupConfig env.configs key
where
  lookupConfig : List (String × ProjectConfig) → String → Option ProjectConfig
    | [], _ => none
    | (k, c) :: rest, key => if k == key then some c else lookupConfig rest key

def globExpand (env : Env) (pattern : String) : List String :=
  match env.globs.find? (fun p => p.1 == pattern) with
  | some (_, paths) => paths
  | none => []

/-! ## Error taxonomy -/

/-- Build-time failures: missing or unparsable schema text, validation
failure, a custom directive colliding with a built-in, or endpoint failure
with no disk fallback ("no schema available"). -/
inductive BuildError where
  | fileNotFound (path : String)
  | unparsableSchema (path : String)
  | directiveConflict (name : String)
  | noSchemaAvailable
deriving DecidableEq, Repr

/-- Endpoint-loader failures: transport error, non-2xx status, or a
malformed/non-JSON payload. -/
inductive EndpointError where
  | transport
  | badStatus (code : Nat)
  | malformedPayload
deriving DecidableEq, Repr

/-! ## Endpoint Loader -/

/-- Modelled from the spec: the Endpoint Loader issues one introspection
request (no retry); a transport error, a non-2xx status, or a reply without a
well-shaped JSON introspection body is an `EndpointError` used by the cache to
decide fallback. -/
def loadEndpoint (net : Network) (ep : Endpoint) : Except EndpointError Introspection :=
  match netRespond net ep.url with
  | NetResponse.transportError => Except.error EndpointError.transport
  | NetResponse.reply code body =>
    if 200 ≤ code ∧ code < 300 then
      match body with
      | some i => Except.ok i
      | none => Except.error EndpointError.malformedPayload
    else Except.error (EndpointError.badStatus code)

/-! ## Schema Builder -/

/-- The directives every schema starts with. -/
def builtinDirectives : List Directive :=
  [ { name := "skip", locations := ["FIELD", "FRAGMENT_SPREAD", "INLINE_FRAGMENT"], args := ["if"] },
    { name := "include", locations := ["FIELD", "FRAGMENT_SPREAD", "INLINE_FRAGMENT"], args := ["if"] },
    { name := "deprecated", locations := ["FIELD_DEFINITION", "ENUM_VALUE"], args := ["reason"] } ]

/-- Modelled from the spec: builds the base schema object from the schema
text at the given disk path; a missing or unparsable file is a `BuildError`
that the cache never caches. -/
def buildFromDisk (fs : FileSystem) (path : String) : Except BuildError SchemaObject :=
  match readFile fs path with
  | none => Except.error (BuildError.fileNotFound path)
  | some FileContent.unparsable => Except.error (BuildError.unparsableSchema path)
  | some (FileContent.queryDoc _ _) => Except.error (BuildError.unparsableSchema path)
  | some (FileContent.schemaDoc d) =>
    Except.ok { source := SchemaSource.disk d, directives := builtinDirectives ++ d.directiveDefs }

/-- Modelled from the spec: the custom-directive definitions found on disk at
the project's extension paths; a missing or unparsable extension file simply
contributes nothing. -/
def readExtensions (fs : FileSystem) (paths : List String) : List Directive :=
  match paths with
  | [] => []
  | p :: rest =>
    (match readFile fs p with
     | some (FileContent.schemaDoc d) => d.directiveDefs
     | _ => []) ++ readExtensions fs rest

/-- Modelled from the spec: the directive merge is additive; a custom
directive whose name collides with a built-in is a conflict error, never a
silent override. -/
def extendSchema (s : SchemaObject) (ext : List Directive) : Except BuildError SchemaObject :=
  match ext.find? (fun d => builtinDirectives.any (fun b => b.name == d.name)) with
  | some d => Except.error (BuildError.directiveConflict d.name)
  | none => Except.ok { s with directives := s.directives ++ ext }

/-- A schema object produced from an introspection result, before directive
extension. -/
def schemaFromIntrospection (i : Introspection) : SchemaObject :=
  { source := SchemaSource.introspection i, directives := builtinDirectives }

/-! ## Project Schema Cache -/

/-- The cache's mutable state: the per-project schema map together with the
append-only log of I/O actions performed so far (the read-count probe of the
spec's testable properties). -/
structure CacheState where
  schemaMap : List (String × CachedSchemaEntry)
  log : List IOEvent
deriving DecidableEq, Repr

def CacheState.empty : CacheState := { schemaMap := [], log := [] }

def lookupEntry (m : List (String × CachedSchemaEntry)) (key : String) :
    Option CachedSchemaEntry :=
  match m with
  | [] => none
  | (k, e) :: rest => if k == key then some e else lookupEntry rest key

/-- Insert an entry, replacing (never merging with) any previous entry for
the same key, so at most one live entry per project key exists. -/
def insertEntry (m : List (String × CachedSchemaEntry)) (key : String)
    (e : CachedSchemaEntry) : List (String × CachedSchemaEntry) :=
  (key, e) :: m.filter (fun p => p.1 ≠ key)

/-- Remove the entry for a key: a pure removal from the cache mapping. -/
def evictEntry (m : List (String × CachedSchemaEntry)) (key : String) :
    List (String × CachedSchemaEntry) :=
  m.filter (fun p => p.1 ≠ key)

/-- Modelled from the spec: the disk leg of `getSchema` — build the base
schema from the configured path, merge the on-disk custom-directive
extensions, and on success cache the result as `sourceKind = DISK` with the
contributing paths recorded for invalidation.  The log records the schema
read and one read attempt per extension path. -/
def buildAndCacheFromDisk (fs : FileSystem) (st : CacheState) (key : String)
    (cfg : ProjectConfig) (path : String) :
    Except BuildError (Option SchemaObject) × CacheState :=
  let st1 : CacheState :=
    { st with log := st.log ++ [IOEvent.diskRead path] ++ cfg.extensionPaths.map IOEvent.diskRead }
  match buildFromDisk fs path with
  | Except.error e => (Except.error e, st1)
  | Except.ok base =>
    match extendSchema base (readExtensions fs cfg.extensionPaths) with
    | Except.error e => (Except.error e, st1)
    | Except.ok schema =>
      let entry : CachedSchemaEntry :=
        { projectKey := key, schema := schema, sourceKind := SourceKind.DISK,
          sourcePaths := path :: cfg.extensionPaths }
      (Except.ok (some schema), { st1 with schemaMap := insertEntry st1.schemaMap key entry })

/-- Modelled from the spec: `getSchema(projectKey)`.  A live cache entry is
returned immediately with no I/O; otherwise the project configuration decides
the strategy — endpoint first when configured (on success the introspection
schema is extended with on-disk custom directives and cached as ENDPOINT; on
failure fall back to the disk path when one is configured, else fail with "no
schema available"); disk directly when only a path is configured; and when
neither is configured, no schema and no negative caching. -/
def getSchema (env : Env) (fs : FileSystem) (st : CacheState) (key : String) :
    Except BuildError (Option SchemaObject) × CacheState :=
  match lookupEntry st.schemaMap key with
  | some entry => (Except.ok (some entry.schema), st)
  | none =>
    match resolveProjectConfig env key with
    | none => (Except.ok none, st)
    | some cfg =>
      match cfg.endpoint with
      | some ep =>
        let st1 : CacheState := { st with log := st.log ++ [IOEvent.netRequest ep.url] }
        match loadEndpoint env.net ep with
        | Except.ok intro =>
          let st2 : CacheState :=
            { st1 with log := st1.log ++ cfg.extensionPaths.map IOEvent.diskRead }
          match extendSchema (schemaFromIntrospection intro)
              (readExtensions fs cfg.extensionPaths) with
          | Except.error e => (Except.error e, st2)
          | Except.ok schema =>
            let entry : CachedSchemaEntry :=
              { projectKey := key, schema := schema, sourceKind := SourceKind.ENDPOINT,
                sourcePaths := cfg.extensionPaths }
            (Except.ok (some schema),
             { st2 with schemaMap := insertEntry st2.schemaMap key entry })
        | Except.error _ =>
          match cfg.schemaPath with
          | some p => buildAndCacheFromDisk fs st1 key cfg p
          | none => (Except.error BuildError.noSchemaAvailable, st1)
      | none =>
        match cfg.schemaPath with
        | some p => buildAndCacheFromDisk fs st key cfg p
        | none => (Except.ok none, st)

/-! ## Invalidation Dispatcher -/

/-- A watchman change descriptor, as delivered by the file-watch transport. -/
structure WatchmanFile where
  name : String
  fileExists : Bool
  size : Nat
  is_fresh_instance : Bool
  mtime : Nat
deriving DecidableEq, Repr

/-- A batch of change descriptors for a subscribed root. -/
structure WatchmanEvent where
  root : String
  subscription : String
  files : List WatchmanFile
deriving DecidableEq, Repr

def joinPath (root : String) (name : String) : String :=
  root ++ "/" ++ name

/-- Modelled from the spec: a changed file matches when it is the project's
configured schema path (relative to the subscription root or verbatim), or a
file the cached entry recorded in its `sourcePaths`. -/
def fileMatches (root : String) (cfg : ProjectConfig)
    (entry : Option CachedSchemaEntry) (f : WatchmanFile) : Bool :=
  (match cfg.schemaPath with
   | some p => joinPath root f.name == p || f.name == p
   | none => false)
  ||
  (match entry with
   | some e => e.sourcePaths.contains (joinPath root f.name) || e.sourcePaths.contains f.name
   | none => false)

/-- Modelled from the spec: `handleWatchmanSubscribeEvent(root, projectConfig)`
returns a handler for change batches; when any file in the batch matches the
project's schema path or the cached entry's source paths, the project's
`CachedSchemaEntry` is evicted regardless of its `sourceKind`.  Eviction is a
pure removal — no rebuild, no I/O. -/
def handleWatchmanSubscribeEvent (root : String) (cfg : ProjectConfig)
    (st : CacheState) (event : WatchmanEvent) : CacheState :=
  let entry := lookupEntry st.schemaMap cfg.projectName
  if event.files.any (fileMatches root cfg entry) then
    { st with schemaMap := evictEntry st.schemaMap cfg.projectName }
  else st

/-! ## Dependency Resolver -/

/-- An indexed definition record: the file it came from, its raw text and its
parsed definition.  One structure serves fragment and named-type records, as
they are structurally identical. -/
structure DefinitionRecord where
  file : String
  content : String
  definition : Definition

/-- A name → record index, as produced by the Fragment/Type Index. -/
abbrev DefinitionIndex := List (String × DefinitionRecord)

def lookupRecord (index : DefinitionIndex) (n : String) : Option DefinitionRecord :=
  match index with
  | [] => none
  | (k, r) :: rest => if k == n then some r else lookupRecord rest n

/-- The further references discovered inside an indexed record's own
definition, under a given reference-extraction strategy. -/
def recordRefs (refsOf : Definition → List String) (r : DefinitionRecord) : List String :=
  refsOf r.definition

/-- Modelled from the spec: the generic work-queue traversal shared by both
resolvers.  A queued name already visited is dropped; a name absent from the
index is silently skipped; a name found in the index is emitted once, and the
references of its definition are appended to the queue.  The fuel argument
bounds the number of dequeues; the top-level entry points supply a
provably-sufficient amount. -/
def resolveLoop (refsOf : Definition → List String) (index : DefinitionIndex) :
    Nat → List String → List String → List (String × DefinitionRecord)
  | 0, _, _ => []
  | _ + 1, _, [] => []
  | fuel + 1, visited, n :: queue =>
    if n ∈ visited then resolveLoop refsOf index fuel visited queue
    else
      match lookupRecord index n with
      | none => resolveLoop refsOf index fuel (n :: visited) queue
      | some r =>
        (n, r) :: resolveLoop refsOf index fuel (n :: visited) (queue ++ recordRefs refsOf r)

/-- Fuel that can never be exhausted before the queue: each record can be
emitted at most once, so the queue grows by at most the sum of all records'
reference counts. -/
def sufficientFuel (refsOf : Definition → List String) (index : DefinitionIndex)
    (initial : List String) : Nat :=
  initial.length + (index.map (fun p => (recordRefs refsOf p.2).length)).sum + index.length + 1

/-- Modelled from the spec: the generic dependency resolver — traverse from
the references found in the top-level document, with the document's own
top-level definition names pre-visited so they are never emitted as
dependencies of the document itself. -/
def resolveDependencies (refsOf : Definition → List String) (index : DefinitionIndex)
    (localNames : List String) (initial : List String) :
    List (String × DefinitionRecord) :=
  resolveLoop refsOf index (sufficientFuel refsOf index initial) localNames initial

/-- Reference extraction for the fragment variant: the spreads inside the
definition's selection set. -/
def fragmentRefsOf (d : Definition) : List String :=
  spreadsInDefinition d

/-- Reference extraction for the named-type variant. -/
def typeRefsOf (d : Definition) : List String :=
  typeRefsInDefinition d

/-- Modelled from the spec: `getFragmentDependenciesForAST(documentAST,
fragmentIndex)` — the transitive closure of fragment spreads reachable from
the document, in first-discovery order, without duplicates, never including
the document's own fragment definitions. -/
def getFragmentDependenciesForAST (doc : Document) (index : DefinitionIndex) :
    List (String × DefinitionRecord) :=
  resolveDependencies fragmentRefsOf index (localFragmentNames doc) (spreadsInDocument doc)

/-- Modelled from the spec: `getObjectTypeDependenciesForAST(documentAST,
typeIndex)` — the same traversal under the named-type reference-extraction
rule, never including the document's own type definitions. -/
def getObjectTypeDependenciesForAST (doc : Document) (index : DefinitionIndex) :
    List (String × DefinitionRecord) :=
  resolveDependencies typeRefsOf index (localTypeNames doc) (typeRefsInDocument doc)

/-! ## Fragment/Type Index -/

/-- Insert with last-write-wins: a later record for the same name replaces
the earlier one; no error is raised. -/
def insertRecord (m : DefinitionIndex) (n : String) (r : DefinitionRecord) :
    DefinitionIndex :=
  (n, r) :: m.filter (fun p => p.1 ≠ n)

/-- The fragment definitions extracted from one parsed file, each paired with
the file path and the file's raw text. -/
def fragmentsOfFile (path : String) (raw : String) (doc : Document) :
    List (String × DefinitionRecord) :=
  doc.definitions.filterMap fun d =>
    match d with
    | Definition.fragmentDef n _ _ =>
      some (n, { file := path, content := raw, definition := d })
    | _ => none

/-- Modelled from the spec: `getFragmentDefinitions(projectConfig)` — expand
the project's include globs against the filesystem (empty or unresolvable
globs yield an empty result, not an error), read and parse every matched
file, and extract all fragment definitions into one flat mapping; an
unreadable or unparsable file is skipped, and a later file's record wins on a
name collision. -/
def getFragmentDefinitions (env : Env) (fs : FileSystem) (cfg : ProjectConfig) :
    DefinitionIndex :=
  let paths := cfg.includeGlobs.flatMap (globExpand env)
  paths.foldl
    (fun acc p =>
      match readFile fs p with
      | some (FileContent.queryDoc raw doc) =>
        (fragmentsOfFile p raw doc).foldl (fun m pr => insertRecord m pr.1 pr.2) acc
      | _ => acc)
    []

/-! ## Fixtures

Concrete projects, files and documents mirroring the repository's test
fixtures, used to instantiate the theorems below. -/

def duckDefinition : Definition :=
  Definition.fragmentDef "Duck" "Duck" [Selection.field "cuack" []]

def catDefinition : Definition :=
  Definition.fragmentDef "Cat" "Cat" [Selection.field "meow" []]

def duckRecord : DefinitionRecord :=
  { file := "someFilePath", content := "fragment Duck on Duck { cuack }",
    definition := duckDefinition }

def catRecord : DefinitionRecord :=
  { file := "someOtherFilePath", content := "fragment Cat on Cat { meow }",
    definition := catDefinition }

def duckCatIndex : DefinitionIndex :=
  [("Duck", duckRecord), ("Cat", catRecord)]

/-- The document extracted from the Relay container: `query A { ...Duck ...Cat }`. -/
def queryDuckCat : Document :=
  { definitions :=
      [Definition.operation (some "A")
        [Selection.fragmentSpread "Duck", Selection.fragmentSpread "Cat"]] }

/-- `query A { ...Duck }`. -/
def queryDuckOnly : Document :=
  { definitions :=
      [Definition.operation (some "A") [Selection.fragmentSpread "Duck"]] }

/-- The SDL fixture: `type Query \x7b hero(episode: Episode): Character \x7d`
and `type Episode \x7b id: ID! \x7d`. -/
def sdlDocument : Document :=
  { definitions :=
      [Definition.objectTypeDef "Query" ["Episode", "Character"],
       Definition.objectTypeDef "Episode" ["ID"]] }

def characterRecord : DefinitionRecord :=
  { file := "someOtherFilePath", content := "type Character",
    definition := Definition.objectTypeDef "Character" [] }

def characterIndex : DefinitionIndex :=
  [("Character", characterRecord)]

/-! ## Resolver invariants -/

/-- Every pair emitted by the traversal loop carries a name that was not yet
visited when the loop started. -/
theorem resolveLoop_fst_not_visited (refsOf : Definition → List String)
    (index : DefinitionIndex) :
    ∀ (fuel : Nat) (visited queue : List String) (p : String × DefinitionRecord),
      p ∈ resolveLoop refsOf index fuel visited queue → p.1 ∉ visited := by
  intro fuel
  induction fuel with
  | zero =>
    intro visited queue p hp
    simp [resolveLoop] at hp
  | succ fuel ih =>
    intro visited queue p hp
    cases queue with
    | nil => simp [resolveLoop] at hp
    | cons n rest =>
      rw [resolveLoop] at hp
      by_cases hv : n ∈ visited
      · rw [if_pos hv] at hp
        exact ih visited rest p hp
      · rw [if_neg hv] at hp
        cases hlook : lookupRecord index n with
        | none =>
          rw [hlook] at hp
          have := ih (n :: visited) rest p hp
          intro hmem
          exact this (List.mem_cons_of_mem n hmem)
        | some r =>
          rw [hlook] at hp
          rcases List.mem_cons.mp hp with h | h
          · intro hmem
            rw [h] at hmem
            exact hv hmem
          · have := ih (n :: visited) (rest ++ recordRefs refsOf r) p h
            intro hmem
            exact this (List.mem_cons_of_mem n hmem)

/-- The traversal loop never emits the same name twice. -/
theorem resolveLoop_names_nodup (refsOf : Definition → List String)
    (index : DefinitionIndex) :
    ∀ (fuel : Nat) (visited queue : List String),
      ((resolveLoop refsOf index fuel visited queue).map Prod.fst).Nodup := by
  intro fuel
  induction fuel with
  | zero =>
    intro visited queue
    simp [resolveLoop]
  | succ fuel ih =>
    intro visited queue
    cases queue with
    | nil => simp [resolveLoop]
    | cons n rest =>
      rw [resolveLoop]
      by_cases hv : n ∈ visited
      · rw [if_pos hv]
        exact ih visited rest
      · rw [if_neg hv]
        cases hlook : lookupRecord index n with
        | none => exact ih (n :: visited) rest
        | some r =>
          simp only [List.map_cons, List.nodup_cons]
          refine ⟨?_, ih (n :: visited) (rest ++ recordRefs refsOf r)⟩
          intro hmem
          rcases List.mem_map.mp hmem with ⟨p, hp, hfst⟩
          have := resolveLoop_fst_not_visited refsOf index fuel (n :: visited)
            (rest ++ recordRefs refsOf r) p hp
          rw [hfst] at this
          exact this (List.mem_cons_self n visited)

/-- Claim C5: both dependency resolvers return results whose names are free
of duplicates, and never emit a name defined at the document's own top level;
on the SDL fixture against a type index containing `Character`, the result is
exactly one record — `Character` — and the locally defined `Episode` is
absent. -/
theorem dependencyResult_nodup_and_no_local :
    (∀ (doc : Document) (index : DefinitionIndex),
      ((getFragmentDependenciesForAST doc index).map Prod.fst).Nodup
      ∧ ((getObjectTypeDependenciesForAST doc index).map Prod.fst).Nodup
      ∧ (∀ n, n ∈ localFragmentNames doc →
          ∀ r, (n, r) ∉ getFragmentDependenciesForAST doc index)
      ∧ (∀ n, n ∈ localTypeNames doc →
          ∀ r, (n, r) ∉ getObjectTypeDependenciesForAST doc index))
    ∧ getObjectTypeDependenciesForAST sdlDocument characterIndex
        = [("Character", characterRecord)] := by
  constructor
  · intro doc index
    refine ⟨resolveLoop_names_nodup _ _ _ _ _, resolveLoop_names_nodup _ _ _ _ _, ?_, ?_⟩
    · intro n hn r hmem
      exact resolveLoop_fst_not_visited fragmentRefsOf index _ _ _ (n, r) hmem hn
    · intro n hn r hmem
      exact resolveLoop_fst_not_visited typeRefsOf index _ _ _ (n, r) hmem hn
  · rfl

/-- Witness for C5: `Episode` is defined at the top level of the SDL fixture,
and accordingly its record never appears among the resolved dependencies. -/
theorem dependencyResult_no_local_witness :
    ("Episode", characterRecord) ∉ getObjectTypeDependenciesForAST sdlDocument characterIndex :=
  dependencyResult_nodup_and_no_local.1 sdlDocument characterIndex |>.2.2.2 "Episode"
    (by simp [localTypeNames, sdlDocument]) characterRecord

/-- Claim C4: against the Duck/Cat index, `query A \x7b ...Duck ...Cat \x7d`
resolves to exactly the two records, in document order, and
`query A \x7b ...Duck \x7d` resolves to the Duck record alone — Cat does not
appear. -/
theorem getFragmentDependenciesForAST_duck_cat :
    getFragmentDependenciesForAST queryDuckCat duckCatIndex
      = [("Duck", duckRecord), ("Cat", catRecord)]
    ∧ getFragmentDependenciesForAST queryDuckOnly duckCatIndex
      = [("Duck", duckRecord)] := by
  constructor <;>
    simp [getFragmentDependenciesForAST, resolveDependencies, resolveLoop, sufficientFuel,
      recordRefs, fragmentRefsOf, spreadsInDefinition, spreadsInSelections, spreadsInDocument,
      localFragmentNames, lookupRecord, queryDuckCat, queryDuckOnly, duckCatIndex, duckRecord,
      catRecord, duckDefinition, catDefinition]

/-! ## Cache lemmas -/

/-- Number of network invocations recorded in a log. -/
def netCalls (l : List IOEvent) : Nat :=
  l.countP fun e =>
    match e with
    | IOEvent.netRequest _ => true
    | IOEvent.diskRead _ => false

theorem netCalls_append (l1 l2 : List IOEvent) :
    netCalls (l1 ++ l2) = netCalls l1 + netCalls l2 :=
  List.countP_append _ _ _

theorem netCalls_diskReads (paths : List String) :
    netCalls (paths.map IOEvent.diskRead) = 0 := by
  induction paths with
  | nil => rfl
  | cons p rest ih => simpa [netCalls, List.countP_cons] using ih

theorem lookupEntry_insertEntry (m : List (String × CachedSchemaEntry)) (key : String)
    (e : CachedSchemaEntry) : lookupEntry (insertEntry m key e) key = some e := by
  simp [insertEntry, lookupEntry]

theorem lookupEntry_filter_ne (m : List (String × CachedSchemaEntry)) (key : String) :
    lookupEntry (m.filter (fun p => p.1 ≠ key)) key = none := by
  induction m with
  | nil => rfl
  | cons kv rest ih =>
    by_cases hk : kv.1 = key
    · simpa [List.filter_cons, hk] using ih
    · have hb : (kv.1 == key) = false := beq_false_of_ne hk
      simpa [List.filter_cons, hk, lookupEntry, hb] using ih

theorem lookupEntry_evictEntry (m : List (String × CachedSchemaEntry)) (key : String) :
    lookupEntry (evictEntry m key) key = none := by
  simpa [evictEntry] using lookupEntry_filter_ne m key

theorem extendSchema_ok (s schema : SchemaObject) (ext : List Directive)
    (h : extendSchema s ext = Except.ok schema) :
    schema.source = s.source ∧ schema.directives = s.directives ++ ext := by
  unfold extendSchema at h
  split at h
  · cases h
  · cases h
    exact ⟨rfl, rfl⟩

theorem buildFromDisk_ok (fs : FileSystem) (p : String) (base : SchemaObject)
    (h : buildFromDisk fs p = Except.ok base) :
    ∃ d : SchemaDoc, readFile fs p = some (FileContent.schemaDoc d)
      ∧ base = { source := SchemaSource.disk d,
                 directives := builtinDirectives ++ d.directiveDefs } := by
  unfold buildFromDisk at h
  split at h
  · cases h
  · cases h
  · cases h
  · rename_i d hread
    cases h
    exact ⟨d, hread, rfl⟩

theorem buildAndCacheFromDisk_success (fs : FileSystem) (st : CacheState) (key : String)
    (cfg : ProjectConfig) (p : String) (base schema : SchemaObject)
    (hb : buildFromDisk fs p = Except.ok base)
    (hx : extendSchema base (readExtensions fs cfg.extensionPaths) = Except.ok schema) :
    buildAndCacheFromDisk fs st key cfg p =
      (Except.ok (some schema),
        { schemaMap := insertEntry st.schemaMap key
            { projectKey := key, schema := schema, sourceKind := SourceKind.DISK,
              sourcePaths := p :: cfg.extensionPaths },
          log := st.log ++ IOEvent.diskRead p :: cfg.extensionPaths.map IOEvent.diskRead }) := by
  simp [buildAndCacheFromDisk, hb, hx]

theorem buildAndCacheFromDisk_ok_some (fs : FileSystem) (st : CacheState) (key : String)
    (cfg : ProjectConfig) (p : String) (s : SchemaObject) (st' : CacheState)
    (h : buildAndCacheFromDisk fs st key cfg p = (Except.ok (some s), st')) :
    ∃ e : CachedSchemaEntry, e.schema = s ∧ e.projectKey = key
      ∧ st'.schemaMap = insertEntry st.schemaMap key e := by
  unfold buildAndCacheFromDisk at h
  split at h
  · cases h
  · rename_i base hb
    split at h
    · cases h
    · rename_i schema hx
      cases h
      exact ⟨_, rfl, rfl, rfl⟩

/-! ## Claims about the Project Schema Cache -/

/-- Claim C1: on a cache miss for a project configured with both an endpoint
and a disk schema, a successful endpoint response yields a schema built from
the introspection result and extended with the on-disk custom-directive
definitions, cached as ENDPOINT; the log grows by exactly one network
request. -/
theorem getSchema_endpoint_success (env : Env) (fs : FileSystem) (st : CacheState)
    (key : String) (cfg : ProjectConfig) (ep : Endpoint) (p : String)
    (intro : Introspection) (schema : SchemaObject)
    (hmiss : lookupEntry st.schemaMap key = none)
    (hcfg : resolveProjectConfig env key = some cfg)
    (hep : cfg.endpoint = some ep)
    (hpath : cfg.schemaPath = some p)
    (hload : loadEndpoint env.net ep = Except.ok intro)
    (hx : extendSchema (schemaFromIntrospection intro)
        (readExtensions fs cfg.extensionPaths) = Except.ok schema) :
    getSchema env fs st key =
      (Except.ok (some schema),
        { schemaMap := insertEntry st.schemaMap key
            { projectKey := key, schema := schema, sourceKind := SourceKind.ENDPOINT,
              sourcePaths := cfg.extensionPaths },
          log := st.log ++ IOEvent.netRequest ep.url :: cfg.extensionPaths.map IOEvent.diskRead })
    ∧ schema.source = SchemaSource.introspection intro
    ∧ schema.directives = builtinDirectives ++ readExtensions fs cfg.extensionPaths
    ∧ netCalls (getSchema env fs st key).2.log = netCalls st.log + 1 := by
  have hmain : getSchema env fs st key =
      (Except.ok (some schema),
        { schemaMap := insertEntry st.schemaMap key
            { projectKey := key, schema := schema, sourceKind := SourceKind.ENDPOINT,
              sourcePaths := cfg.extensionPaths },
          log := st.log ++ IOEvent.netRequest ep.url :: cfg.extensionPaths.map IOEvent.diskRead }) := by
    simp [getSchema, hmiss, hcfg, hep, hload, hx]
  obtain ⟨hsrc, hdirs⟩ := extendSchema_ok _ _ _ hx
  refine ⟨hmain, hsrc, by simpa [schemaFromIntrospection] using hdirs, ?_⟩
  rw [hmain]
  simp only []
  rw [show (st.log ++ IOEvent.netRequest ep.url :: cfg.extensionPaths.map IOEvent.diskRead)
        = st.log ++ ([IOEvent.netRequest ep.url] ++ cfg.extensionPaths.map IOEvent.diskRead) by simp,
      netCalls_append, netCalls_append, netCalls_diskReads]
  rfl

/-- Claim C2: on a cache miss for a project whose endpoint fails (transport
error, non-2xx status, or malformed payload) and whose disk schema builds, a
valid schema built from disk is returned and cached as DISK; the log shows
the network attempt strictly before the fallback disk read. -/
theorem getSchema_endpoint_failure_falls_back (env : Env) (fs : FileSystem)
    (st : CacheState) (key : String) (cfg : ProjectConfig) (ep : Endpoint) (p : String)
    (err : EndpointError) (base schema : SchemaObject)
    (hmiss : lookupEntry st.schemaMap key = none)
    (hcfg : resolveProjectConfig env key = some cfg)
    (hep : cfg.endpoint = some ep)
    (hpath : cfg.schemaPath = some p)
    (hload : loadEndpoint env.net ep = Except.error err)
    (hb : buildFromDisk fs p = Except.ok base)
    (hx : extendSchema base (readExtensions fs cfg.extensionPaths) = Except.ok schema) :
    getSchema env fs st key =
      (Except.ok (some schema),
        { schemaMap := insertEntry st.schemaMap key
            { projectKey := key, schema := schema, sourceKind := SourceKind.DISK,
              sourcePaths := p :: cfg.extensionPaths },
          log := st.log ++ IOEvent.netRequest ep.url :: IOEvent.diskRead p ::
                   cfg.extensionPaths.map IOEvent.diskRead })
    ∧ (∃ d, base.source = SchemaSource.disk d)
    ∧ schema.source = base.source
    ∧ netCalls (getSchema env fs st key).2.log = netCalls st.log + 1 := by
  have hmain : getSchema env fs st key =
      (Except.ok (some schema),
        { schemaMap := insertEntry st.schemaMap key
            { projectKey := key, schema := schema, sourceKind := SourceKind.DISK,
              sourcePaths := p :: cfg.extensionPaths },
          log := st.log ++ IOEvent.netRequest ep.url :: IOEvent.diskRead p ::
                   cfg.extensionPaths.map IOEvent.diskRead }) := by
    have hbc := buildAndCacheFromDisk_success fs
      { st with log := st.log ++ [IOEvent.netRequest ep.url] } key cfg p base schema hb hx
    simp only [getSchema, hmiss, hcfg, hep, hload, hpath, hbc]
    simp
  obtain ⟨d, -, hbase⟩ := buildFromDisk_ok _ _ _ hb
  obtain ⟨hsrc, -⟩ := extendSchema_ok _ _ _ hx
  refine ⟨hmain, ⟨d, by rw [hbase]⟩, hsrc, ?_⟩
  rw [hmain]
  simp only []
  rw [show (st.log ++ IOEvent.netRequest ep.url :: IOEvent.diskRead p ::
        cfg.extensionPaths.map IOEvent.diskRead)
      = st.log ++ ([IOEvent.netRequest ep.url]
          ++ ([IOEvent.diskRead p] ++ cfg.extensionPaths.map IOEvent.diskRead)) by simp,
    netCalls_append, netCalls_append, netCalls_append, netCalls_diskReads]
  rfl

/-- Claim C6: on a cache miss for a project with neither a schema path nor an
endpoint, `getSchema` returns no schema without raising, leaves the state
(cache and log) untouched, and — because nothing negative was cached — a
later configuration fix is picked up by the very next call. -/
theorem getSchema_neither_configured (env : Env) (fs : FileSystem) (st : CacheState)
    (key : String) (cfg : ProjectConfig)
    (hmiss : lookupEntry st.schemaMap key = none)
    (hcfg : resolveProjectConfig env key = some cfg)
    (hep : cfg.endpoint = none)
    (hpath : cfg.schemaPath = none) :
    getSchema env fs st key = (Except.ok none, st)
    ∧ (∀ (env2 : Env) (cfg2 : ProjectConfig) (p2 : String) (base2 schema2 : SchemaObject),
        resolveProjectConfig env2 key = some cfg2 → cfg2.endpoint = none →
        cfg2.schemaPath = some p2 → buildFromDisk fs p2 = Except.ok base2 →
        extendSchema base2 (readExtensions fs cfg2.extensionPaths) = Except.ok schema2 →
        (getSchema env2 fs st key).1 = Except.ok (some schema2)) := by
  refine ⟨by simp [getSchema, hmiss, hcfg, hep, hpath], ?_⟩
  intro env2 cfg2 p2 base2 schema2 hcfg2 hep2 hpath2 hb2 hx2
  have hbc := buildAndCacheFromDisk_success fs st key cfg2 p2 base2 schema2 hb2 hx2
  simp [getSchema, hmiss, hcfg2, hep2, hpath2, hbc]

/-- A successful `getSchema` on a cache miss always commits exactly one fresh
entry for the key, holding the returned schema. -/
theorem getSchema_ok_some_populates (env : Env) (fs : FileSystem) (st : CacheState)
    (key : String) (s : SchemaObject) (st' : CacheState)
    (hmiss : lookupEntry st.schemaMap key = none)
    (h : getSchema env fs st key = (Except.ok (some s), st')) :
    ∃ e : CachedSchemaEntry, e.schema = s ∧ e.projectKey = key
      ∧ st'.schemaMap = insertEntry st.schemaMap key e := by
  unfold getSchema at h
  simp only [hmiss] at h
  cases hr : resolveProjectConfig env key with
  | none => simp only [hr] at h; simp at h
  | some cfg =>
    simp only [hr] at h
    cases hep : cfg.endpoint with
    | some ep =>
      simp only [hep] at h
      cases hl : loadEndpoint env.net ep with
      | ok intro =>
        simp only [hl] at h
        cases hx : extendSchema (schemaFromIntrospection intro)
            (readExtensions fs cfg.extensionPaths) with
        | error e => simp only [hx] at h; simp at h
        | ok schema =>
          simp only [hx] at h
          rw [Prod.mk.injEq] at h
          obtain ⟨h1, h2⟩ := h
          rw [Except.ok.injEq, Option.some.injEq] at h1
          refine ⟨{ projectKey := key, schema := schema,
                    sourceKind := SourceKind.ENDPOINT,
                    sourcePaths := cfg.extensionPaths }, h1, rfl, ?_⟩
          rw [← h2]
      | error err =>
        simp only [hl] at h
        cases hp : cfg.schemaPath with
        | some p =>
          simp only [hp] at h
          obtain ⟨e, he1, he2, he3⟩ := buildAndCacheFromDisk_ok_some fs
            { schemaMap := st.schemaMap, log := st.log ++ [IOEvent.netRequest ep.url] }
            key cfg p s st' h
          exact ⟨e, he1, he2, he3⟩
        | none => simp only [hp] at h; simp at h
    | none =>
      simp only [hep] at h
      cases hp : cfg.schemaPath with
      | some p =>
        simp only [hp] at h
        exact buildAndCacheFromDisk_ok_some _ _ _ _ _ _ _ h
      | none => simp only [hp] at h; simp at h

/-- Claim C7: after a first successful `getSchema` on a miss, a live cache
entry holding the returned schema exists, and a repeated call returns that
schema immediately with the state — cache and I/O log — unchanged: the schema
is built at most once and the second call performs no I/O. -/
theorem getSchema_idempotent_after_success (env : Env) (fs : FileSystem)
    (st : CacheState) (key : String) (s : SchemaObject) (st' : CacheState)
    (hmiss : lookupEntry st.schemaMap key = none)
    (h : getSchema env fs st key = (Except.ok (some s), st')) :
    (∃ e : CachedSchemaEntry, lookupEntry st'.schemaMap key = some e ∧ e.schema = s)
    ∧ getSchema env fs st' key = (Except.ok (some s), st') := by
  obtain ⟨e, hs, -, hmap⟩ := getSchema_ok_some_populates env fs st key s st' hmiss h
  have hhit : lookupEntry st'.schemaMap key = some e := by
    rw [hmap]
    exact lookupEntry_insertEntry _ _ _
  exact ⟨⟨e, hhit, hs⟩, by simp [getSchema, hhit, hs]⟩

/-- Claim C3: once a successful `getSchema` from an empty cache has populated
exactly one entry — of either source kind, since `getSchema` is quantified
over arbitrary environments — delivering a change batch containing a file
that matches the project's schema path evicts that entry (size 1 to 0)
without touching the I/O log, and leaves the key unmapped so the next
`getSchema` call takes the rebuild path lazily. -/
theorem handleWatchmanSubscribeEvent_evicts (env : Env) (fs : FileSystem)
    (st0 st : CacheState) (key : String) (s : SchemaObject)
    (root p : String) (cfg : ProjectConfig) (event : WatchmanEvent) (f : WatchmanFile)
    (hmap0 : st0.schemaMap = [])
    (hget : getSchema env fs st0 key = (Except.ok (some s), st))
    (hkey : cfg.projectName = key)
    (hpath : cfg.schemaPath = some p)
    (hf : f ∈ event.files)
    (hmatch : joinPath root f.name = p) :
    st.schemaMap.length = 1
    ∧ (handleWatchmanSubscribeEvent root cfg st event).schemaMap.length = 0
    ∧ (handleWatchmanSubscribeEvent root cfg st event).log = st.log
    ∧ lookupEntry (handleWatchmanSubscribeEvent root cfg st event).schemaMap key = none := by
  have hmiss : lookupEntry st0.schemaMap key = none := by rw [hmap0]; rfl
  obtain ⟨e, -, -, hmap⟩ := getSchema_ok_some_populates env fs st0 key s st hmiss hget
  have hmap1 : st.schemaMap = [(key, e)] := by
    rw [hmap, hmap0]
    rfl
  have hmatchB : fileMatches root cfg (lookupEntry st.schemaMap cfg.projectName) f = true := by
    simp [fileMatches, hpath, hmatch]
  have hany : event.files.any (fileMatches root cfg (lookupEntry st.schemaMap cfg.projectName)) = true :=
    List.any_eq_true.mpr ⟨f, hf, hmatchB⟩
  have hhandler : handleWatchmanSubscribeEvent root cfg st event
      = { st with schemaMap := evictEntry st.schemaMap cfg.projectName } := by
    simp [handleWatchmanSubscribeEvent, hany]
  have hevict : evictEntry st.schemaMap cfg.projectName = [] := by
    rw [hmap1, hkey]
    simp [evictEntry]
  refine ⟨by rw [hmap1]; rfl, ?_, ?_, ?_⟩
  · rw [hhandler]
    simp [hevict]
  · rw [hhandler]
  · rw [hhandler]
    simp [hevict, lookupEntry]

theorem fileMatches_name_only (root : String) (cfg : ProjectConfig)
    (entry : Option CachedSchemaEntry) (f g : WatchmanFile) (h : f.name = g.name) :
    fileMatches root cfg entry f = fileMatches root cfg entry g := by
  simp [fileMatches, h]

theorem any_fileMatches_name_only (root : String) (cfg : ProjectConfig)
    (entry : Option CachedSchemaEntry) :
    ∀ (l1 l2 : List WatchmanFile),
      l1.map WatchmanFile.name = l2.map WatchmanFile.name →
      l1.any (fileMatches root cfg entry) = l2.any (fileMatches root cfg entry) := by
  intro l1
  induction l1 with
  | nil =>
    intro l2 h
    cases l2 with
    | nil => rfl
    | cons b t2 => simp at h
  | cons a t ih =>
    intro l2 h
    cases l2 with
    | nil => simp at h
    | cons b t2 =>
      simp only [List.map_cons, List.cons.injEq] at h
      obtain ⟨h1, h2⟩ := h
      simp only [List.any_cons, fileMatches_name_only root cfg entry a b h1, ih t2 h2]

/-- Claim C10: the change handler is a function of the batch's file names
alone — two batches listing the same names in the same order produce the same
state, whatever their `exists`, `size`, `mtime` or freshness values — and in
particular a descriptor with `exists = true` (a modification) whose name
matches the schema path still evicts the cached entry. -/
theorem handleWatchmanSubscribeEvent_name_only :
    (∀ (root : String) (cfg : ProjectConfig) (st : CacheState) (ev1 ev2 : WatchmanEvent),
      ev1.files.map WatchmanFile.name = ev2.files.map WatchmanFile.name →
      handleWatchmanSubscribeEvent root cfg st ev1 = handleWatchmanSubscribeEvent root cfg st ev2)
    ∧ (∀ (root : String) (cfg : ProjectConfig) (st : CacheState) (e : CachedSchemaEntry)
        (p nm rootS sub : String) (sz mt : Nat) (fr : Bool),
        lookupEntry st.schemaMap cfg.projectName = some e →
        cfg.schemaPath = some p → joinPath root nm = p →
        lookupEntry (handleWatchmanSubscribeEvent root cfg st
          { root := rootS, subscription := sub,
            files := [{ name := nm, fileExists := true, size := sz,
                        is_fresh_instance := fr, mtime := mt }] }).schemaMap
          cfg.projectName = none) := by
  constructor
  · intro root cfg st ev1 ev2 h
    simp only [handleWatchmanSubscribeEvent]
    rw [any_fileMatches_name_only root cfg (lookupEntry st.schemaMap cfg.projectName)
      ev1.files ev2.files h]
  · intro root cfg st e p nm rootS sub sz mt fr hent hpath hmatch
    have hm : fileMatches root cfg (lookupEntry st.schemaMap cfg.projectName)
        { name := nm, fileExists := true, size := sz,
          is_fresh_instance := fr, mtime := mt } = true := by
      simp [fileMatches, hpath, hmatch]
    simp only [handleWatchmanSubscribeEvent, List.any_cons, hm, Bool.true_or, if_true]
    exact lookupEntry_evictEntry _ _

/-! ## Concrete projects

A concrete environment mirroring the test configuration: a Star Wars schema
on disk, an introspection endpoint, projects with either, both or neither,
per-project custom-directive extension files, and include globs over fragment
files. -/

namespace Fixture

def starWarsDoc : SchemaDoc :=
  { typeDefs := ["Query", "Character", "Human", "Droid"], directiveDefs := [] }

def schemaFile : String := "app/__schema__/StarWarsSchema.graphql"

def introResult : Introspection :=
  { typeNames := ["Query", "Character", "Human", "Droid"] }

def endpointA : Endpoint := { url := "http://localhost:3000/graphql", headers := [] }

/-- The schema the Schema Builder produces from the disk file. -/
def diskSchema : SchemaObject :=
  { source := SchemaSource.disk starWarsDoc, directives := builtinDirectives }

/-- The schema built from the endpoint's introspection result. -/
def endpointSchema : SchemaObject :=
  { source := SchemaSource.introspection introResult, directives := builtinDirectives }

def cfgWithSchema : ProjectConfig :=
  { projectName := "testWithSchema", schemaPath := some schemaFile, endpoint := none,
    includeGlobs := [], extensionPaths := [] }

def cfgWithEndpoint : ProjectConfig :=
  { projectName := "testWithEndpoint", schemaPath := none, endpoint := some endpointA,
    includeGlobs := [], extensionPaths := [] }

def cfgWithEndpointAndSchema : ProjectConfig :=
  { projectName := "testWithEndpointAndSchema", schemaPath := some schemaFile,
    endpoint := some endpointA, includeGlobs := [], extensionPaths := [] }

def cfgWithoutSchema : ProjectConfig :=
  { projectName := "testWithoutSchema", schemaPath := none, endpoint := none,
    includeGlobs := [], extensionPaths := [] }

def fsMain : FileSystem := [(schemaFile, FileContent.schemaDoc starWarsDoc)]

/-- Environment whose endpoint answers 200 with a well-shaped body. -/
def envOk : Env :=
  { configs :=
      [("testWithSchema", cfgWithSchema),
       ("testWithEndpoint", cfgWithEndpoint),
       ("testWithEndpointAndSchema", cfgWithEndpointAndSchema),
       ("testWithoutSchema", cfgWithoutSchema)],
    net := [(endpointA.url, NetResponse.reply 200 (some introResult))],
    globs := [] }

/-- The same projects with the endpoint answering 500. -/
def envFail : Env :=
  { envOk with net := [(endpointA.url, NetResponse.reply 500 none)] }

/-- The cache state after a first disk-only `getSchema` for `testWithSchema`. -/
def diskEntry : CachedSchemaEntry :=
  { projectKey := "testWithSchema", schema := diskSchema, sourceKind := SourceKind.DISK,
    sourcePaths := [schemaFile] }

def stAfterDisk : CacheState :=
  { schemaMap := [("testWithSchema", diskEntry)], log := [IOEvent.diskRead schemaFile] }

/-- The watchman descriptor delivered in the invalidation tests. -/
def schemaChange : WatchmanFile :=
  { name := "__schema__/StarWarsSchema.graphql", fileExists := true, size := 5,
    is_fresh_instance := true, mtime := 0 }

def schemaChangeEvent : WatchmanEvent :=
  { root := "app", subscription := "", files := [schemaChange] }

/-- Custom-directive extension material: the same directive name with
different locations in two different projects' extension files. -/
def fieldDirective : Directive :=
  { name := "customDirective", locations := ["FIELD"], args := [] }

def spreadDirective : Directive :=
  { name := "customDirective", locations := ["FRAGMENT_SPREAD"], args := [] }

def fieldDirectivePath : String := "appA/customDirectives.graphql"

def spreadDirectivePath : String := "appB/customDirectives.graphql"

def fsDirectives : FileSystem :=
  [ (schemaFile, FileContent.schemaDoc starWarsDoc),
    (fieldDirectivePath,
      FileContent.schemaDoc { typeDefs := [], directiveDefs := [fieldDirective] }),
    (spreadDirectivePath,
      FileContent.schemaDoc { typeDefs := [], directiveDefs := [spreadDirective] }) ]

def cfgCustomField : ProjectConfig :=
  { projectName := "testWithCustomDirectives", schemaPath := some schemaFile,
    endpoint := none, includeGlobs := [], extensionPaths := [fieldDirectivePath] }

def cfgCustomSpread : ProjectConfig :=
  { projectName := "testWithSchema", schemaPath := some schemaFile,
    endpoint := none, includeGlobs := [], extensionPaths := [spreadDirectivePath] }

def envDirectives : Env :=
  { configs :=
      [("testWithCustomDirectives", cfgCustomField),
       ("testWithSchema", cfgCustomSpread)],
    net := [], globs := [] }

/-- Fragment-index material: a fixture fragment file and a query file reached
through include globs. -/
def testFragmentDefinition : Definition :=
  Definition.fragmentDef "testFragment" "Character" [Selection.field "id" []]

def fragmentsFileRaw : String := "fragment testFragment on Character { id }"

def fragmentsFilePath : String := "fragments/testFragment.graphql"

def queriesFilePath : String := "queries/query.graphql"

def fsIncludes : FileSystem :=
  [ (fragmentsFilePath,
      FileContent.queryDoc fragmentsFileRaw { definitions := [testFragmentDefinition] }),
    (queriesFilePath,
      FileContent.queryDoc "query Q { hero }"
        { definitions := [Definition.operation (some "Q") [Selection.field "hero" []]] }) ]

def envIncludes : Env :=
  { configs := [], net := [],
    globs :=
      [("fragments/*.graphql", [fragmentsFilePath]),
       ("queries/*.graphql", [queriesFilePath])] }

def cfgSingleGlob : ProjectConfig :=
  { projectName := "testSingularIncludesGlob", schemaPath := none, endpoint := none,
    includeGlobs := ["fragments/*.graphql"], extensionPaths := [] }

def cfgMultipleGlobs : ProjectConfig :=
  { projectName := "testMultipleIncludes", schemaPath := none, endpoint := none,
    includeGlobs := ["fragments/*.graphql", "queries/*.graphql"], extensionPaths := [] }

def cfgNoIncludes : ProjectConfig :=
  { projectName := "testNoIncludes", schemaPath := none, endpoint := none,
    includeGlobs := [], extensionPaths := [] }

def cfgBadIncludes : ProjectConfig :=
  { projectName := "testBadIncludes", schemaPath := none, endpoint := none,
    includeGlobs := ["bad/lost/*.graphql"], extensionPaths := [] }

def testFragmentRecord : DefinitionRecord :=
  { file := fragmentsFilePath, content := fragmentsFileRaw,
    definition := testFragmentDefinition }

end Fixture

/-- Looks up a directive through a fresh `getSchema` call, the way the tests
observe `schema.getDirective`. -/
def getDirectiveViaCache (env : Env) (fs : FileSystem) (key n : String) : Option Directive :=
  match (getSchema env fs CacheState.empty key).1 with
  | Except.ok (some s) => s.getDirective n
  | _ => none

/-- Claim C9: directive extensions are applied per project — with the same
directive name carrying FIELD locations in one project's extension file and
FRAGMENT_SPREAD locations in the other's, each project's schema exposes only
its own locations. -/
theorem getSchema_directives_per_project :
    getDirectiveViaCache Fixture.envDirectives Fixture.fsDirectives
        "testWithCustomDirectives" "customDirective" = some Fixture.fieldDirective
    ∧ getDirectiveViaCache Fixture.envDirectives Fixture.fsDirectives
        "testWithSchema" "customDirective" = some Fixture.spreadDirective
    ∧ Fixture.fieldDirective.locations = ["FIELD"]
    ∧ Fixture.spreadDirective.locations = ["FRAGMENT_SPREAD"] :=
  ⟨rfl, rfl, rfl, rfl⟩

/-- Claim C8: index scanning completes for a single glob, multiple globs, an
empty include list and a non-existent include path; the empty and
non-existent configurations yield the empty mapping, and the other two yield
a mapping containing the fixture's `testFragment` record. -/
theorem getFragmentDefinitions_include_globs :
    lookupRecord (getFragmentDefinitions Fixture.envIncludes Fixture.fsIncludes
        Fixture.cfgSingleGlob) "testFragment" = some Fixture.testFragmentRecord
    ∧ lookupRecord (getFragmentDefinitions Fixture.envIncludes Fixture.fsIncludes
        Fixture.cfgMultipleGlobs) "testFragment" = some Fixture.testFragmentRecord
    ∧ getFragmentDefinitions Fixture.envIncludes Fixture.fsIncludes Fixture.cfgNoIncludes = []
    ∧ getFragmentDefinitions Fixture.envIncludes Fixture.fsIncludes Fixture.cfgBadIncludes = [] :=
  ⟨rfl, rfl, rfl, rfl⟩

/-! ## Witnesses at the concrete environment -/

/-- Witness for C1: the endpoint-and-schema project of the fixture
environment receives the introspection-built schema. -/
theorem getSchema_endpoint_success_witness :
    (getSchema Fixture.envOk Fixture.fsMain CacheState.empty "testWithEndpointAndSchema").1
      = Except.ok (some Fixture.endpointSchema) := by
  rw [(getSchema_endpoint_success Fixture.envOk Fixture.fsMain CacheState.empty
    "testWithEndpointAndSchema" Fixture.cfgWithEndpointAndSchema Fixture.endpointA
    Fixture.schemaFile Fixture.introResult Fixture.endpointSchema rfl rfl rfl rfl rfl rfl).1]

/-- Witness for C2: with the endpoint answering 500, the same project falls
back to the disk-built schema. -/
theorem getSchema_endpoint_failure_falls_back_witness :
    (getSchema Fixture.envFail Fixture.fsMain CacheState.empty "testWithEndpointAndSchema").1
      = Except.ok (some Fixture.diskSchema) := by
  rw [(getSchema_endpoint_failure_falls_back Fixture.envFail Fixture.fsMain CacheState.empty
    "testWithEndpointAndSchema" Fixture.cfgWithEndpointAndSchema Fixture.endpointA
    Fixture.schemaFile (EndpointError.badStatus 500) Fixture.diskSchema Fixture.diskSchema
    rfl rfl rfl rfl rfl rfl rfl).1]

/-- Witness for C6: the project with neither schema path nor endpoint yields
no schema and leaves the empty state untouched. -/
theorem getSchema_neither_configured_witness :
    getSchema Fixture.envOk Fixture.fsMain CacheState.empty "testWithoutSchema"
      = (Except.ok none, CacheState.empty) :=
  (getSchema_neither_configured Fixture.envOk Fixture.fsMain CacheState.empty
    "testWithoutSchema" Fixture.cfgWithoutSchema rfl rfl rfl rfl).1

/-- Witness for C7: a second `getSchema` for the disk project returns the
cached schema and the exact same state. -/
theorem getSchema_idempotent_after_success_witness :
    getSchema Fixture.envOk Fixture.fsMain Fixture.stAfterDisk "testWithSchema"
      = (Except.ok (some Fixture.diskSchema), Fixture.stAfterDisk) :=
  (getSchema_idempotent_after_success Fixture.envOk Fixture.fsMain CacheState.empty
    "testWithSchema" Fixture.diskSchema Fixture.stAfterDisk rfl rfl).2

/-- Witness for C3: after the disk project's schema is cached, the schema
file change batch empties the cache map. -/
theorem handleWatchmanSubscribeEvent_evicts_witness :
    (handleWatchmanSubscribeEvent "app" Fixture.cfgWithSchema Fixture.stAfterDisk
        Fixture.schemaChangeEvent).schemaMap.length = 0 :=
  (handleWatchmanSubscribeEvent_evicts Fixture.envOk Fixture.fsMain CacheState.empty
    Fixture.stAfterDisk "testWithSchema" Fixture.diskSchema "app" Fixture.schemaFile
    Fixture.cfgWithSchema Fixture.schemaChangeEvent Fixture.schemaChange
    rfl rfl rfl rfl (by simp [Fixture.schemaChangeEvent]) rfl).2.1

/-- Witness for C10: a descriptor reporting `exists = true` for the schema
file still evicts the cached entry. -/
theorem handleWatchmanSubscribeEvent_name_only_witness :
    lookupEntry (handleWatchmanSubscribeEvent "app" Fixture.cfgWithSchema Fixture.stAfterDisk
      { root := "app", subscription := "",
        files := [{ name := "__schema__/StarWarsSchema.graphql", fileExists := true,
                    size := 5, is_fresh_instance := true, mtime := 0 }] }).schemaMap
      "testWithSchema" = none :=
  handleWatchmanSubscribeEvent_name_only.2 "app" Fixture.cfgWithSchema Fixture.stAfterDisk
    Fixture.diskEntry Fixture.schemaFile "__schema__/StarWarsSchema.graphql" "app" "" 5 0 true
    rfl rfl rfl

end GraphQLCache
